import Mathlib

/-!
Verification development for the secret-share bot repository.

The definitions below are shallow embeddings of the share lifecycle code:

* `Share` mirrors the document stored in the `shares` collection
  (`handlers/share_flow.py`, `db.py`).
* `stepOne` embeds the two viewer entry points
  (`process_view_secret_deep_link` and `view_secret_button_handler` in
  `handlers/share_flow.py`) as a small-step program over the share record,
  so that arbitrary interleavings of concurrent view attempts can be run.
* `seqAttempt` runs one attempt to completion sequentially.
* `markShareAsExpiredJob` and `executeMessageDeletionJob` embed the two
  scheduler jobs of `utils/scheduler.py`.
* `confirmationFinalCommit` embeds the commit step of
  `confirmation_final_handler`, and `mySecretRevoke` the revoke action of
  `handlers/my_secrets.py`.
* `genericShareCancel` embeds `generic_share_cancel_handler` over the
  session table of `utils/user_states.py`.

Timestamps are abstract `Nat` ticks; `datetime.now()` at the k-th store
access of a run is tick k.
-/

namespace SecretShare

/-- The `status` field of a share document: `"active"`, `"viewed"`,
`"expired"`, `"revoked"` or `"destructed"`. -/
inductive ShareStatus
  | active
  | viewed
  | expired
  | revoked
  | destructed
deriving DecidableEq, Repr

/-- The `recipient_type` field: `"user"` (specific user) or `"link"`. -/
inductive RecipientType
  | user
  | link
deriving DecidableEq, Repr

/-- A document of the `shares` collection, as written by
`confirmation_final_handler` in `handlers/share_flow.py` and mutated by the
view, revoke and scheduler paths. -/
structure Share where
  share_uuid : String
  access_token : String
  sender_id : Int
  recipient_type : RecipientType
  recipient_id : Option Int
  recipient_display_name : Option String
  share_type : String
  original_message_id : Int
  original_chat_id : Int
  show_forward_tag : Bool
  is_protected_content : Bool
  bot_message_id_to_recipient : Option Int
  status : ShareStatus
  created_at : Nat
  expires_at : Option Nat
  self_destruct_minutes_set : Int
  view_count : Int
  max_views : Int
  viewed_at : Option Nat
  viewed_by_user_id : Option Int
  viewed_by_display_name : Option String
  expired_at : Option Nat
  revoked_at : Option Nat
  destructed_at : Option Nat
  failure_reason : Option String
deriving DecidableEq, Repr

/-- The filter of the atomic `find_one_and_update` used by both viewer entry
points (`share_flow.py` lines 165-173 and 995-1005): the record must be
`active` and either `max_views <= 0` (unlimited) or `view_count < max_views`. -/
def viewMatchCond (s : Share) : Bool :=
  decide (s.status = .active) &&
    (decide (s.max_views ≤ 0) || decide (s.view_count < s.max_views))

/-- The `$set` part of the atomic view update, as assembled by the handlers
before calling `find_one_and_update`. `markViewed` records whether the
status/viewed_at/viewed_by fields were put into the dict, `claimRecipient`
whether the recipient-claim fields were. -/
structure ViewSetFields where
  markViewed : Bool
  viewer : Int
  viewerName : String
  claimRecipient : Bool
deriving DecidableEq, Repr

/-- Apply `{"$set": update_fields, "$inc": {"view_count": 1}}` to a share. -/
def applyViewUpdate (f : ViewSetFields) (now : Nat) (s : Share) : Share :=
  let s1 := if f.markViewed then
      { s with status := .viewed, viewed_at := some now,
               viewed_by_user_id := some f.viewer,
               viewed_by_display_name := some f.viewerName }
    else s
  let s2 := if f.claimRecipient then
      { s1 with recipient_id := some f.viewer,
                recipient_display_name := some f.viewerName }
    else s1
  { s2 with view_count := s2.view_count + 1 }

/-- The atomic `find_one_and_update` (with `return_document=True`): returns
the post-update document when the filter matches, `none` otherwise, together
with the new store contents. -/
def findOneAndUpdateView (f : ViewSetFields) (now : Nat) (s : Share) :
    Option Share × Share :=
  if viewMatchCond s then
    let s' := applyViewUpdate f now s
    (some s', s')
  else (none, s)

/-- `update_fields` computed by the deep-link handler from its initial,
possibly stale, fetch of the share (`share_flow.py` lines 132-160). -/
def deeplinkFields (pre : Share) (viewer : Int) (name : String) : ViewSetFields :=
  { markViewed := decide (0 < pre.max_views) && decide (pre.max_views ≤ pre.view_count + 1),
    viewer := viewer,
    viewerName := name,
    claimRecipient :=
      decide (pre.recipient_type = .link) && decide (pre.recipient_id = none) &&
      decide (0 < pre.max_views) &&
      (decide (pre.max_views < pre.view_count) ||
       decide (pre.view_count + 1 = pre.max_views)) }

/-- The unconditional `update_share` issued by the deep-link handler when its
pre-check sees an active share whose view count already reached the limit
(`share_flow.py` lines 115-119): `$set {status: expired, expired_at,
failure_reason}` filtered on `share_uuid` only. -/
def expireMaxViewsWrite (now : Nat) (mv : Int) (s : Share) : Share :=
  { s with status := .expired, expired_at := some now,
           failure_reason := some ("max_views_reached (" ++ toString mv ++ ")") }

/-- The follow-up `update_share` of the deep-link handler after a successful
view (`share_flow.py` lines 215-223): if the pre-fetched `max_views` is
positive and the post-update `view_count` reached it, unconditionally
`$set {status: destructed, destructed_at: now}`. -/
def deeplinkFinalizeWrite (preMv : Int) (upd : Share) (now : Nat) (s : Share) : Share :=
  if decide (0 < preMv) && decide (preMv ≤ upd.view_count) then
    { s with status := .destructed, destructed_at := some now }
  else s

/-- The follow-up `update_share` of the button handler after a successful view
(`share_flow.py` lines 1083-1093): condition read from the post-update
document; `destructed_at` is included in the `$set` only when the post-update
document does not already carry one. -/
def buttonFinalizeWrite (upd : Share) (now : Nat) (s : Share) : Share :=
  if decide (0 < upd.max_views) && decide (upd.max_views ≤ upd.view_count) then
    if upd.destructed_at = none then
      { s with status := .destructed, destructed_at := some now }
    else
      { s with status := .destructed }
  else s

/-- Which handler a view attempt runs: the `/start viewsecret_…` deep link or
the "View Secret" callback button. -/
inductive Entry
  | deepLink
  | button
deriving DecidableEq, Repr

/-- One concurrent view attempt: entry point, viewer id and display name. -/
structure AttemptCfg where
  entry : Entry
  viewer : Int
  viewerName : String
deriving DecidableEq, Repr

/-- How a view attempt ends, mapped onto the spec's outcome taxonomy:
`success` means the atomic update returned the updated record and content was
delivered; `conflict` is the no-match branch of the atomic update;
`alreadyFinalized` is the deep-link pre-check's "already been {status}" reply;
`notPermitted` the "not intended for you / claimed by someone else" refusals;
`maxViewsExpired` the deep-link branch that writes `status=expired` after
seeing the view limit already reached. -/
inductive ViewOutcome
  | success
  | conflict
  | alreadyFinalized
  | notPermitted
  | maxViewsExpired
deriving DecidableEq, Repr

/-- Program counter of one view attempt between its store accesses. Each
constructor records the data the handler computed from earlier (possibly
stale) reads. -/
inductive APC
  | dStart
  | dExpire (mv : Int)
  | dAtomic (preMv : Int) (f : ViewSetFields)
  | dFinal (preMv : Int) (upd : Share)
  | bStart
  | bRead2 (mk : Bool)
  | bAtomic (f : ViewSetFields)
  | bFinal (upd : Share)
  | done (o : ViewOutcome)
deriving DecidableEq, Repr

/-- Initial program counter for an entry point. -/
def initPC : Entry → APC
  | .deepLink => .dStart
  | .button => .bStart

/-- One store access of a view attempt. Each case performs exactly one
database operation of the corresponding handler:

* `dStart`: the deep-link handler's initial `find_one` plus its pure checks
  (`share_flow.py` lines 87-160);
* `dExpire`: the unconditional expired write of lines 115-119;
* `dAtomic`/`bAtomic`: the atomic `find_one_and_update`;
* `dFinal`/`bFinal`: the follow-up destructed write after a delivered view;
* `bStart`: the button handler's first `find_one` (computing
  `set_on_view_fields`, lines 955-972);
* `bRead2`: its second `find_one` and the recipient claim/permission checks
  (lines 976-992). -/
def stepOne (cfg : AttemptCfg) (now : Nat) (pc : APC) (s : Share) : APC × Share :=
  match pc with
  | .dStart =>
      if s.status ≠ .active then (.done .alreadyFinalized, s)
      else if s.recipient_id.isSome ∧ s.recipient_type = .link ∧
              s.recipient_id ≠ some cfg.viewer then
        (.done .notPermitted, s)
      else if 0 < s.max_views ∧ s.max_views ≤ s.view_count then
        (.dExpire s.max_views, s)
      else
        (.dAtomic s.max_views (deeplinkFields s cfg.viewer cfg.viewerName), s)
  | .dExpire mv => (.done .maxViewsExpired, expireMaxViewsWrite now mv s)
  | .dAtomic preMv f =>
      match findOneAndUpdateView f now s with
      | (none, s') => (.done .conflict, s')
      | (some upd, s') => (.dFinal preMv upd, s')
  | .dFinal preMv upd => (.done .success, deeplinkFinalizeWrite preMv upd now s)
  | .bStart =>
      (.bRead2 (decide (0 < s.max_views) && decide (s.max_views ≤ s.view_count + 1)), s)
  | .bRead2 mk =>
      if s.recipient_id = none ∧ s.recipient_type = .link then
        (.bAtomic ⟨mk, cfg.viewer, cfg.viewerName, true⟩, s)
      else if s.recipient_id.isSome ∧ s.recipient_id ≠ some cfg.viewer then
        (.done .notPermitted, s)
      else
        (.bAtomic ⟨mk, cfg.viewer, cfg.viewerName, false⟩, s)
  | .bAtomic f =>
      match findOneAndUpdateView f now s with
      | (none, s') => (.done .conflict, s')
      | (some upd, s') => (.bFinal upd, s')
  | .bFinal upd => (.done .success, buttonFinalizeWrite upd now s)
  | .done o => (.done o, s)

/-- State of a set of concurrent view attempts against one share record. -/
structure Sys where
  share : Share
  time : Nat
  pcs : List APC
deriving DecidableEq, Repr

/-- Advance attempt `i` by one store access. Scheduling an index that is out
of range or an attempt that already finished changes nothing. -/
def sysStep (cfgs : List AttemptCfg) (sys : Sys) (i : Nat) : Sys :=
  match cfgs.get? i, sys.pcs.get? i with
  | some cfg, some pc =>
      let r := stepOne cfg sys.time pc sys.share
      { share := r.2, time := sys.time + 1, pcs := sys.pcs.set i r.1 }
  | _, _ => sys

/-- Run a schedule: the list gives, in order, which attempt performs its next
store access. Every interleaving of the attempts is a schedule. -/
def run (cfgs : List AttemptCfg) (sys : Sys) : List Nat → Sys
  | [] => sys
  | i :: rest => run cfgs (sysStep cfgs sys i) rest

/-- All attempts start at their entry point against the given share. -/
def initSys (cfgs : List AttemptCfg) (s0 : Share) : Sys :=
  { share := s0, time := 0, pcs := cfgs.map (fun c => initPC c.entry) }

/-- Attempts that finished with a delivered view. -/
def isSuccessPC : APC → Bool
  | .done .success => true
  | _ => false

/-- Attempts that have passed the atomic update successfully (they will end
in `done success`). -/
def succeededB : APC → Bool
  | .dFinal _ _ => true
  | .bFinal _ => true
  | .done .success => true
  | _ => false

/-- Attempts that have finished. -/
def isDoneB : APC → Bool
  | .done _ => true
  | _ => false

/-- Number of attempts that finished with a delivered view. -/
def successCount (sys : Sys) : Nat := sys.pcs.countP isSuccessPC

/-- Every attempt has finished. -/
def allDone (sys : Sys) : Prop := ∀ pc ∈ sys.pcs, isDoneB pc = true

instance (sys : Sys) : Decidable (allDone sys) := by
  unfold allDone; infer_instance

/-- One view attempt executed sequentially (no interference): the handler
performs at most four store accesses. -/
def seqAttempt (cfg : AttemptCfg) (t : Nat) (s : Share) : APC × Share :=
  let r1 := stepOne cfg t (initPC cfg.entry) s
  let r2 := stepOne cfg (t + 1) r1.1 r1.2
  let r3 := stepOne cfg (t + 2) r2.1 r2.2
  stepOne cfg (t + 3) r3.1 r3.2

/-- `_mark_share_as_expired_job` (`utils/scheduler.py` lines 122-139): a
single conditional `update_one` filtered on `share_uuid` and
`status == "active"`. -/
def markShareAsExpiredJob (now : Nat) (s : Share) : Share :=
  if s.status = .active then { s with status := .expired, expired_at := some now }
  else s

/-- Outcome of the transport's `delete_messages` call inside the
message-deletion job. -/
inductive DeleteMsgResult
  | ok
  | forbidden
  | idInvalid
deriving DecidableEq, Repr

/-- `_execute_message_deletion_job` (`utils/scheduler.py` lines 96-119):
on successful deletion, `update_share` sets `status=destructed`; on
`MessageDeleteForbidden` it sets `status=expired` with a `failure_reason`;
on `MessageIdInvalid` the share is untouched. Both writes are filtered on
`share_uuid` only. `hasShareUuid` models the `if share_uuid` guard. -/
def executeMessageDeletionJob (now : Nat) (res : DeleteMsgResult) (hasShareUuid : Bool)
    (s : Share) : Share :=
  match res with
  | .ok =>
      if hasShareUuid then { s with status := .destructed, destructed_at := some now }
      else s
  | .forbidden =>
      if hasShareUuid then
        { s with status := .expired, failure_reason := some "delete_forbidden",
                 expired_at := some now }
      else s
  | .idInvalid => s

/-! ### Scheduled jobs (`utils/scheduler.py`)

The APScheduler job store is modelled as the list of currently scheduled job
ids; `replace_existing=True` replaces a job with the same id. -/

/-- `schedule_generic_task` with `replace_existing=True`. -/
def scheduleJob (id : String) (jobs : List String) : List String :=
  id :: jobs.filter (fun j => j ≠ id)

/-- `cancel_scheduled_job`: removes the job and returns `true`, or returns
`false` on `JobLookupError` when no job has this id. -/
def cancelJob (id : String) (jobs : List String) : Bool × List String :=
  if jobs.contains id then (true, jobs.filter (fun j => j ≠ id))
  else (false, jobs)

/-- Job id used by `schedule_share_expiry`:
`JOB_ID_PREFIX_EXPIRE_SHARE + share_uuid` with
`JOB_ID_PREFIX_EXPIRE_SHARE = "exp_share_"`. -/
def expiryJobId (shareUuid : String) : String := "exp_share_" ++ shareUuid

/-- Job id used by `schedule_message_deletion`:
`JOB_ID_PREFIX_DELETE_MESSAGE + chat_id + "_" + message_id + "_" + share_uuid`
with `JOB_ID_PREFIX_DELETE_MESSAGE = "del_msg_"`. -/
def deletionJobId (chatId msgId : Int) (shareUuid : String) : String :=
  "del_msg_" ++ toString chatId ++ "_" ++ toString msgId ++ "_" ++ shareUuid

/-! ### Share creation (`confirmation_final_handler`, `share_flow.py` 805-934) -/

/-- The completed flow data a confirmed share is built from (the
`required_keys` of `confirmation_final_handler` plus the optional recipient
and max-views entries). -/
structure FlowData where
  share_uuid : String
  sender_id : Int
  sender_mention : String
  recipient_type : RecipientType
  recipient_id : Option Int
  recipient_display_name : Option String
  share_type : String
  original_message_id : Int
  original_chat_id : Int
  original_file_name : Option String
  show_forward_tag : Bool
  is_protected_content : Bool
  self_destruct_minutes_set : Int
  max_views : Int
deriving DecidableEq, Repr

/-- `db_share_doc` as assembled at `share_flow.py` lines 840-864. Time is in
abstract minutes, so `expires_at = now + self_destruct_minutes_set` when the
timer choice is positive. -/
def buildShareDoc (flow : FlowData) (tok : String) (now : Nat) : Share :=
  { share_uuid := flow.share_uuid
    access_token := tok
    sender_id := flow.sender_id
    recipient_type := flow.recipient_type
    recipient_id := flow.recipient_id
    recipient_display_name := flow.recipient_display_name
    share_type := flow.share_type
    original_message_id := flow.original_message_id
    original_chat_id := flow.original_chat_id
    show_forward_tag := flow.show_forward_tag
    is_protected_content := flow.is_protected_content
    bot_message_id_to_recipient := none
    status := .active
    created_at := now
    expires_at :=
      if 0 < flow.self_destruct_minutes_set then
        some (now + flow.self_destruct_minutes_set.toNat)
      else none
    self_destruct_minutes_set := flow.self_destruct_minutes_set
    view_count := 0
    max_views := flow.max_views
    viewed_at := none
    viewed_by_user_id := none
    viewed_by_display_name := none
    expired_at := none
    revoked_at := none
    destructed_at := none
    failure_reason := none }

/-- Result of `client.send_message` for the control message sent to a
specific recipient: the new message id, or the transport errors caught by the
handler (`UserIsBlocked`, `PeerIdInvalid`). -/
inductive SendResult
  | sent (msgId : Int)
  | blocked
  | peerInvalid
deriving DecidableEq, Repr

/-- Persistent state touched by the commit step: the shares collection and
the scheduled-job store. -/
structure CommitState where
  shares : List Share
  jobs : List String
deriving DecidableEq, Repr

/-- How `confirmation_final_handler` ends for the user. -/
inductive CommitOutcome
  | linkReady
  | sentToRecipient
  | transportError
  | badConfig
deriving DecidableEq, Repr

/-- The commit step of `confirmation_final_handler` (lines 869-934), given
the transport's answer `send` to the control-message delivery:

* link shares: `create_share`, then `schedule_share_expiry` when a timer is
  set — no delivery happens before the record is written;
* specific-user shares: the control message is sent first; only if it is
  delivered are the deletion job scheduled (when a timer is set) and the
  record written. `UserIsBlocked`/`PeerIdInvalid` abort before `create_share`;
* a user share without a `recipient_id` raises (`ValueError`) before any
  write. -/
def confirmationFinalCommit (flow : FlowData) (tok : String) (now : Nat)
    (send : SendResult) (st : CommitState) : CommitState × CommitOutcome :=
  let doc := buildShareDoc flow tok now
  match flow.recipient_type with
  | .link =>
      let st1 : CommitState := { st with shares := st.shares ++ [doc] }
      let st2 : CommitState :=
        if doc.expires_at.isSome then
          { st1 with jobs := scheduleJob (expiryJobId doc.share_uuid) st1.jobs }
        else st1
      (st2, .linkReady)
  | .user =>
      match flow.recipient_id with
      | none => (st, .badConfig)
      | some rid =>
          match send with
          | .blocked => (st, .transportError)
          | .peerInvalid => (st, .transportError)
          | .sent msgId =>
              let doc' : Share := { doc with bot_message_id_to_recipient := some msgId }
              let st1 : CommitState :=
                if doc.expires_at.isSome then
                  { st with jobs := scheduleJob (deletionJobId rid msgId doc.share_uuid) st.jobs }
                else st
              ({ st1 with shares := st1.shares ++ [doc'] }, .sentToRecipient)

/-! ### Revoke (`my_secret_action_handler`, `handlers/my_secrets.py` 152-220) -/

/-- How the revoke action ends for the sender. -/
inductive RevokeOutcome
  | alreadyTerminal
  | revoked
deriving DecidableEq, Repr

/-- The job id the revoke handler tries to cancel (`my_secrets.py` lines
187-197): for shares with a delivered control message the deletion job id,
else for link shares the hard-coded string
`"expire_share_" + share_uuid + "_" + access_token`. -/
def revokeCancelJobId (s : Share) : Option String :=
  if s.bot_message_id_to_recipient.isSome ∧ s.recipient_id.isSome then
    some ("del_msg_" ++ toString (s.recipient_id.getD 0) ++ "_" ++
          toString (s.bot_message_id_to_recipient.getD 0) ++ "_" ++ s.share_uuid)
  else if s.recipient_type = .link ∧ s.access_token ≠ "" then
    some ("expire_share_" ++ s.share_uuid ++ "_" ++ s.access_token)
  else none

/-- The `update_share` issued by the revoke branch of
`my_secret_action_handler` (`my_secrets.py` lines 178-184): a `$set` of
`status=revoked`, `revoked_at=now`, `expires_at=now` filtered on `share_uuid`
only. It is a separate store access from the status pre-read at line 174 and
applies to whatever the record holds when it executes — it is not conditioned
on the record's current status. -/
def revokeWrite (now : Nat) (s : Share) : Share :=
  { s with status := .revoked, revoked_at := some now, expires_at := some now }

/-- The revoke branch of `my_secret_action_handler`, executed sequentially
(no interference between its store accesses): the pre-read at
`my_secrets.py` line 174 refuses when the status it sees is not
`active`/`viewed`; otherwise the unconditional `revokeWrite` is issued and
then one job cancellation is attempted. -/
def mySecretRevoke (now : Nat) (s : Share) (jobs : List String) :
    Share × List String × RevokeOutcome :=
  if s.status ≠ .active ∧ s.status ≠ .viewed then (s, jobs, .alreadyTerminal)
  else
    let s' : Share := revokeWrite now s
    let jobs' :=
      match revokeCancelJobId s with
      | some jid => (cancelJob jid jobs).2
      | none => jobs
    (s', jobs', .revoked)

/-! ### Flow sessions (`utils/user_states.py`, `generic_share_cancel_handler`) -/

/-- The per-user conversation states of `utils/user_states.py`. -/
inductive UserState
  | DEFAULT
  | AWAITING_SHARE_CONTENT
  | AWAITING_RECIPIENT
  | AWAITING_PROTECTION_PREFERENCES
  | AWAITING_SELF_DESTRUCT_CHOICE
  | AWAITING_MAX_VIEWS_CHOICE
  | AWAITING_CONFIRMATION
  | AWAITING_BROADCAST_MESSAGE
  | AWAITING_BAN_REASON
deriving DecidableEq, Repr

/-- The `_user_states` dictionary: each entry maps a user id to its state and
the `share_uuid` of the flow data (`none` when the dict carries no
`share_uuid` key). -/
abbrev Sessions := List (Int × UserState × Option String)

/-- `get_user_state`: the stored entry, or `(DEFAULT, {})` when absent. -/
def getUserState (ss : Sessions) (uid : Int) : UserState × Option String :=
  match ss.find? (fun e => e.1 == uid) with
  | some e => e.2
  | none => (.DEFAULT, none)

/-- `clear_user_state`: drop the user's entry (a no-op when absent). -/
def clearUserState (ss : Sessions) (uid : Int) : Sessions :=
  ss.filter (fun e => e.1 != uid)

/-- How `generic_share_cancel_handler` answers the callback. -/
inductive CancelOutcome
  | cancelled
  | noActiveFlow
deriving DecidableEq, Repr

/-- `generic_share_cancel_handler` (`share_flow.py` lines 1228-1251):
cancel when the callback's share uuid matches the session's, or — when the
callback carries no uuid — when the user is in a flow; otherwise answer
"no active share process" and touch nothing. Cancelling runs
`cancel_current_share_flow`, which clears the session. -/
def genericShareCancel (ss : Sessions) (uid : Int) (cbUuid : Option String) :
    Sessions × CancelOutcome :=
  let st := getUserState ss uid
  if cbUuid.isSome ∧ st.2 = cbUuid then
    (clearUserState ss uid, .cancelled)
  else if cbUuid = none ∧ st.2.isSome ∧ st.1 ≠ .DEFAULT then
    (clearUserState ss uid, .cancelled)
  else
    (ss, .noActiveFlow)

/-! ### Concrete records used in scenarios, counterexamples and witnesses -/

/-- A fresh unclaimed one-time link share (`max_views = 1`, `status active`,
`view_count 0`). -/
def baseShare : Share :=
  { share_uuid := "u1", access_token := "t1", sender_id := 10,
    recipient_type := .link, recipient_id := none, recipient_display_name := none,
    share_type := "message", original_message_id := 100, original_chat_id := 10,
    show_forward_tag := true, is_protected_content := false,
    bot_message_id_to_recipient := none,
    status := .active, created_at := 0, expires_at := none,
    self_destruct_minutes_set := 0,
    view_count := 0, max_views := 1,
    viewed_at := none, viewed_by_user_id := none, viewed_by_display_name := none,
    expired_at := none, revoked_at := none, destructed_at := none,
    failure_reason := none }

/-- A fresh link share allowing three views. -/
def linkShare3 : Share := { baseShare with max_views := 3 }

/-- The share after the first sequential deep-link view of `linkShare3`. -/
def view1 : Share := (seqAttempt ⟨.deepLink, 7, "V"⟩ 0 linkShare3).2

/-- The share after the second sequential deep-link view. -/
def view2 : Share := (seqAttempt ⟨.deepLink, 7, "V"⟩ 10 view1).2

/-- The share after the third sequential deep-link view. -/
def view3 : Share := (seqAttempt ⟨.deepLink, 7, "V"⟩ 20 view2).2

/-- A specific-user share bound at creation to viewer 1. -/
def userShareBound1 : Share :=
  { baseShare with
    recipient_type := .user
    recipient_id := some 1
    recipient_display_name := some "A"
    bot_message_id_to_recipient := some 500 }

/-- Two concurrent button attempts by different viewers. -/
def raceCfgs : List AttemptCfg := [⟨.button, 1, "A"⟩, ⟨.button, 2, "B"⟩]

/-- Two button attempts by viewers 2 and 3, neither of whom is the bound
recipient. -/
def strangerCfgs : List AttemptCfg := [⟨.button, 2, "B"⟩, ⟨.button, 3, "C"⟩]

/-- A `max_views = 2` specific-user share bound to viewer 5. -/
def userShare2Views : Share :=
  { baseShare with
    recipient_type := .user
    recipient_id := some 5
    recipient_display_name := some "R"
    max_views := 2 }

/-- Two concurrent button attempts and one deep-link attempt, all by the
bound recipient 5. -/
def staleCfgs : List AttemptCfg :=
  [⟨.button, 5, "R"⟩, ⟨.button, 5, "R"⟩, ⟨.deepLink, 5, "R"⟩]

/-- The interleaving in which both button attempts pre-read the fresh share,
both pass the atomic update, and the deep-link attempt then observes an
`active` share whose `view_count` equals `max_views`. -/
def staleSched : List Nat := [0, 0, 1, 1, 0, 1, 2, 2]

/-- `staleSched` followed by the second button attempt's finalization write. -/
def staleSchedFin : List Nat := staleSched ++ [1]

/-- Flow data for a link share with a 60-minute timer, used for the revoke
job-id evidence. -/
def c6Flow : FlowData :=
  { share_uuid := "u1", sender_id := 10, sender_mention := "S",
    recipient_type := .link, recipient_id := none, recipient_display_name := none,
    share_type := "message", original_message_id := 100, original_chat_id := 10,
    original_file_name := none, show_forward_tag := true, is_protected_content := false,
    self_destruct_minutes_set := 60, max_views := 1 }

/-- The link share document committed from `c6Flow`. -/
def c6Doc : Share := buildShareDoc c6Flow "t1" 0

/-- The persistent state after committing `c6Flow`. -/
def c6State : CommitState :=
  (confirmationFinalCommit c6Flow "t1" 0 (.sent 0) { shares := [], jobs := [] }).1

/-! ### Invariant for races on a `max_views = 1` share -/

/-- Program counters legal while racing on a `max_views = 1` share: the
deep-link expired write is unreachable and every in-flight atomic update
carries the viewed-marking fields. -/
def pcOK1 : APC → Prop
  | .dExpire _ => False
  | .dAtomic _ f => f.markViewed = true
  | .bAtomic f => f.markViewed = true
  | .bRead2 mk => mk = true
  | .done .maxViewsExpired => False
  | _ => True

/-- Invariant of every reachable state of a race of view attempts against a
fresh `max_views = 1` share `s0`. -/
def Inv (s0 : Share) (n : Nat) (sys : Sys) : Prop :=
  sys.pcs.length = n ∧
  sys.share.max_views = 1 ∧
  sys.pcs.countP succeededB ≤ 1 ∧
  (1 ≤ sys.pcs.countP succeededB → sys.share.status ≠ .active) ∧
  (sys.share.status = .active → sys.share.view_count = 0) ∧
  0 ≤ sys.share.view_count ∧
  (∀ pc ∈ sys.pcs, pcOK1 pc) ∧
  (sys.pcs.countP succeededB = 0 → sys.share = s0) ∧
  (s0.recipient_type = .link → s0.recipient_id = none →
    sys.pcs.countP succeededB = 0 → ∀ pc ∈ sys.pcs, isDoneB pc = false)

/-! ## Theorems -/

/-- C7: for every share whose status has left `active` (moved to `viewed`,
`revoked` or `destructed`) before the scheduled expiry timer fires, the
timer's conditional update matches zero records and leaves every field of the
share unchanged — it never overrides a more specific terminal state. -/
theorem C7_timer_non_override (now : Nat) (s : Share)
    (h : s.status = .viewed ∨ s.status = .revoked ∨ s.status = .destructed) :
    markShareAsExpiredJob now s = s := by
  unfold markShareAsExpiredJob
  rcases h with h | h | h <;> simp [h]

/-- Witness for C7 at a destructed share. -/
theorem C7_timer_non_override_witness :
    markShareAsExpiredJob 5 { baseShare with status := .destructed } =
      { baseShare with status := .destructed } :=
  C7_timer_non_override 5 { baseShare with status := .destructed } (Or.inr (Or.inr rfl))

/-- C9: cancelling a flow for a user who has no live flow session (no entry,
or a session whose `share_uuid` differs from the one in the callback) mutates
no session state and is answered as a plain acknowledgement. -/
theorem C9_cancel_idempotent (ss : Sessions) (uid : Int) (cbUuid : Option String)
    (h : (getUserState ss uid).2 = none ∨
         ∃ u, cbUuid = some u ∧ (getUserState ss uid).2 ≠ some u) :
    genericShareCancel ss uid cbUuid = (ss, .noActiveFlow) := by
  unfold genericShareCancel
  dsimp only
  rcases h with h | ⟨u, hcb, hne⟩
  · split_ifs with h1 h2
    · rw [h] at h1
      rcases h1 with ⟨hs, he⟩
      rw [← he] at hs
      simp at hs
    · rw [h] at h2
      simp at h2
    · rfl
  · subst hcb
    split_ifs with h1 h2
    · exact absurd h1.2 hne
    · simp at h2
    · rfl

/-- Witness for C9: cancelling with an empty session table. -/
theorem C9_cancel_idempotent_witness :
    genericShareCancel [] 3 (some "u9") = ([], .noActiveFlow) :=
  C9_cancel_idempotent [] 3 (some "u9") (Or.inl rfl)

/-- C8: when the control-message delivery for a specific-user share fails
with a transport error (`UserIsBlocked` / `PeerIdInvalid`), no share record
is written and no job is scheduled: the persist step runs only after the
delivery step succeeds. -/
theorem C8_transport_failure_no_record (flow : FlowData) (tok : String) (now : Nat)
    (send : SendResult) (st : CommitState) (rid : Int)
    (hrt : flow.recipient_type = .user) (hrid : flow.recipient_id = some rid)
    (hfail : send = .blocked ∨ send = .peerInvalid) :
    confirmationFinalCommit flow tok now send st = (st, .transportError) := by
  rcases hfail with h | h <;> subst h <;>
    simp [confirmationFinalCommit, hrt, hrid]

/-- Witness for C8 at a concrete specific-user flow whose delivery is
blocked. -/
theorem C8_transport_failure_no_record_witness :
    confirmationFinalCommit
      { c6Flow with recipient_type := .user, recipient_id := some 2 }
      "t8" 0 .blocked { shares := [], jobs := [] } =
      ({ shares := [], jobs := [] }, .transportError) :=
  C8_transport_failure_no_record
    { c6Flow with recipient_type := .user, recipient_id := some 2 }
    "t8" 0 .blocked { shares := [], jobs := [] } 2 rfl rfl (Or.inl rfl)

/-- C6 (code bug evidence): committing a link share with a timer schedules
the expiry job under id `exp_share_u1`, but the revoke handler attempts to
cancel id `expire_share_u1_t1`; the cancellation is a no-op
(`JobLookupError`), so after a successful revoke the expiry job is still
scheduled, although revoke itself does set `status=revoked`,
`revoked_at=now` and `expires_at=now`. -/
theorem C6_revoke_misses_expiry_job :
    c6State.jobs = ["exp_share_u1"] ∧
    expiryJobId c6Doc.share_uuid = "exp_share_u1" ∧
    revokeCancelJobId c6Doc = some "expire_share_u1_t1" ∧
    cancelJob "expire_share_u1_t1" c6State.jobs = (false, ["exp_share_u1"]) ∧
    (mySecretRevoke 99 c6Doc c6State.jobs).2.2 = .revoked ∧
    (mySecretRevoke 99 c6Doc c6State.jobs).1.status = .revoked ∧
    (mySecretRevoke 99 c6Doc c6State.jobs).1.revoked_at = some 99 ∧
    (mySecretRevoke 99 c6Doc c6State.jobs).1.expires_at = some 99 ∧
    (mySecretRevoke 99 c6Doc c6State.jobs).2.1 = ["exp_share_u1"] := by
  decide

/-- Stepping a finished attempt changes nothing. -/
theorem stepOne_done (cfg : AttemptCfg) (now : Nat) (o : ViewOutcome) (s : Share) :
    stepOne cfg now (.done o) s = (.done o, s) := rfl

/-- C10: in the deep-link path, for a share with `max_views = 0` (unlimited),
a successful view registration increments `view_count` by exactly 1 and
changes no other field: status stays `active`, `viewed_at`,
`viewed_by_user_id`, `recipient_id` and `recipient_display_name` are
untouched, and no destructed finalization write runs afterwards. -/
theorem C10_unlimited_view_frame (v : Int) (nm : String) (t : Nat) (s : Share)
    (hmv : s.max_views = 0)
    (hsucc : (seqAttempt ⟨.deepLink, v, nm⟩ t s).1 = .done .success) :
    (seqAttempt ⟨.deepLink, v, nm⟩ t s).2 = { s with view_count := s.view_count + 1 } ∧
    (seqAttempt ⟨.deepLink, v, nm⟩ t s).2.status = .active := by
  have hs : s.status = .active := by
    by_contra hne
    simp [seqAttempt, stepOne, initPC, hne] at hsucc
  have hnr : ¬(s.recipient_id.isSome ∧ s.recipient_type = .link ∧
      s.recipient_id ≠ some v) := by
    intro hr
    simp [seqAttempt, stepOne, initPC, hs, hr] at hsucc
  have hnc : ¬(0 < s.max_views ∧ s.max_views ≤ s.view_count) := by
    rw [hmv]; simp
  simp [seqAttempt, stepOne, initPC, hs, hnr, hnc, findOneAndUpdateView,
        viewMatchCond, applyViewUpdate, deeplinkFields, deeplinkFinalizeWrite, hmv]

/-- Witness for C10 at a concrete unlimited share. -/
theorem C10_unlimited_view_frame_witness :
    (seqAttempt ⟨.deepLink, 3, "V"⟩ 0 { baseShare with max_views := 0 }).2 =
      { { baseShare with max_views := 0 } with
          view_count := { baseShare with max_views := 0 }.view_count + 1 } ∧
    (seqAttempt ⟨.deepLink, 3, "V"⟩ 0 { baseShare with max_views := 0 }).2.status = .active :=
  C10_unlimited_view_frame 3 "V" 0 { baseShare with max_views := 0 } rfl (by decide)

/-- C3 (amended): a share whose `recipient_id` is bound to a different user
is refused without any mutation on the button entry point, and on the
deep-link entry point only when the share is link-typed: the deep-link
handler performs no recipient check for specific-user shares. -/
theorem C3_amended (v : Int) (nm : String) (t : Nat) (s : Share) (r : Int)
    (hr : s.recipient_id = some r) (hne : r ≠ v) :
    seqAttempt ⟨.button, v, nm⟩ t s = (.done .notPermitted, s) ∧
    (s.recipient_type = .link → s.status = .active →
      seqAttempt ⟨.deepLink, v, nm⟩ t s = (.done .notPermitted, s)) := by
  constructor
  · have h1 : ¬(s.recipient_id = none ∧ s.recipient_type = .link) := by
      simp [hr]
    have h2 : s.recipient_id.isSome ∧ s.recipient_id ≠ some v := by
      simp [hr]; exact hne
    simp [seqAttempt, stepOne, initPC, h1, h2]
  · intro hlink hact
    have h2 : s.recipient_id.isSome ∧ s.recipient_type = .link ∧
        s.recipient_id ≠ some v := by
      refine ⟨by simp [hr], hlink, ?_⟩
      simp [hr]; exact hne
    simp [seqAttempt, stepOne, initPC, hact, h2]

/-- Witness for C3 (amended): viewer 2 pressing the button of a share bound
to viewer 1 is refused and nothing changes. -/
theorem C3_amended_witness :
    seqAttempt ⟨.button, 2, "B"⟩ 0 userShareBound1 = (.done .notPermitted, userShareBound1) ∧
    (userShareBound1.recipient_type = .link → userShareBound1.status = .active →
      seqAttempt ⟨.deepLink, 2, "B"⟩ 0 userShareBound1 =
        (.done .notPermitted, userShareBound1)) :=
  C3_amended 2 "B" 0 userShareBound1 1 rfl (by decide)

/-- C3 counterexample: viewer 2 opening the deep link of a specific-user
share bound to viewer 1 is not refused — the atomic update succeeds and
mutates the share, contradicting the claim that both entry points return
`NotPermitted` with no field mutated. -/
theorem C3_counterexample :
    (seqAttempt ⟨.deepLink, 2, "B"⟩ 0 userShareBound1).1 = .done .success ∧
    (seqAttempt ⟨.deepLink, 2, "B"⟩ 0 userShareBound1).2.status = .destructed ∧
    (seqAttempt ⟨.deepLink, 2, "B"⟩ 0 userShareBound1).2.view_count = 1 ∧
    (seqAttempt ⟨.deepLink, 2, "B"⟩ 0 userShareBound1).2 ≠ userShareBound1 := by
  decide

/-- C2 (amended): for an active share with `max_views = N > 0`, a successful
deep-link view whose post-increment `view_count` is still below `N` leaves
the status `active` and changes nothing but `view_count`; the view whose
post-increment count reaches `N` sets `viewed`/`viewed_at`/`viewed_by` in the
atomic update and a separate follow-up write then sets `destructed` and
`destructed_at`. Three sequential views of a `max_views = 3` share therefore
produce statuses `active, active, destructed` with `view_count` 1, 2, 3. -/
theorem C2_amended :
    (∀ (v : Int) (nm : String) (t : Nat) (s : Share),
      s.status = .active → 0 < s.max_views → 0 ≤ s.view_count →
      ¬(s.recipient_id.isSome ∧ s.recipient_type = .link ∧ s.recipient_id ≠ some v) →
      ((s.view_count + 1 < s.max_views →
        seqAttempt ⟨.deepLink, v, nm⟩ t s =
          (.done .success, { s with view_count := s.view_count + 1 })) ∧
       (s.view_count + 1 = s.max_views →
        (seqAttempt ⟨.deepLink, v, nm⟩ t s).1 = .done .success ∧
        ((findOneAndUpdateView (deeplinkFields s v nm) (t + 1) s).2).status = .viewed ∧
        (seqAttempt ⟨.deepLink, v, nm⟩ t s).2.status = .destructed ∧
        (seqAttempt ⟨.deepLink, v, nm⟩ t s).2.view_count = s.view_count + 1 ∧
        (seqAttempt ⟨.deepLink, v, nm⟩ t s).2.viewed_at = some (t + 1) ∧
        (seqAttempt ⟨.deepLink, v, nm⟩ t s).2.viewed_by_user_id = some v ∧
        (seqAttempt ⟨.deepLink, v, nm⟩ t s).2.destructed_at = some (t + 2)))) ∧
    (view1.status = .active ∧ view1.view_count = 1 ∧ view1.viewed_at = none ∧
     view2.status = .active ∧ view2.view_count = 2 ∧ view2.viewed_at = none ∧
     view3.status = .destructed ∧ view3.view_count = 3 ∧
     (seqAttempt ⟨.deepLink, 7, "V"⟩ 0 linkShare3).1 = .done .success ∧
     (seqAttempt ⟨.deepLink, 7, "V"⟩ 10 view1).1 = .done .success ∧
     (seqAttempt ⟨.deepLink, 7, "V"⟩ 20 view2).1 = .done .success) := by
  constructor
  · intro v nm t s hact hmv hvc hnr
    constructor
    · intro hlt
      have hle : ¬(s.max_views ≤ s.view_count) := by omega
      have hmk : ¬(s.max_views ≤ s.view_count + 1) := by omega
      have heq : ¬(s.view_count + 1 = s.max_views) := by omega
      have hgt : ¬(s.max_views < s.view_count) := by omega
      have hmatch : s.view_count < s.max_views := by omega
      have hmkf : (deeplinkFields s v nm).markViewed = false := by
        simp [deeplinkFields, hmk]
      have hclf : (deeplinkFields s v nm).claimRecipient = false := by
        simp [deeplinkFields, heq, hgt]
      simp [seqAttempt, stepOne, initPC, hact, hnr, hle, findOneAndUpdateView,
            viewMatchCond, applyViewUpdate, deeplinkFinalizeWrite,
            hmkf, hclf, hmk, hmatch, hmv]
    · intro heq
      have hle : ¬(s.max_views ≤ s.view_count) := by omega
      have hmk : s.max_views ≤ s.view_count + 1 := by omega
      have hmatch : s.view_count < s.max_views := by omega
      have hmkt : (deeplinkFields s v nm).markViewed = true := by
        simp [deeplinkFields, hmk, hmv]
      have hvv : (deeplinkFields s v nm).viewer = v := rfl
      by_cases hcl : (deeplinkFields s v nm).claimRecipient = true
      · simp [seqAttempt, stepOne, initPC, hact, hnr, hle, findOneAndUpdateView,
              viewMatchCond, applyViewUpdate, deeplinkFinalizeWrite,
              hmkt, hcl, hvv, hmk, hmatch, hmv]
      · simp only [Bool.not_eq_true] at hcl
        simp [seqAttempt, stepOne, initPC, hact, hnr, hle, findOneAndUpdateView,
              viewMatchCond, applyViewUpdate, deeplinkFinalizeWrite,
              hmkt, hcl, hvv, hmk, hmatch, hmv]
  · refine ⟨by decide, by decide, by decide, by decide, by decide, by decide,
           by decide, by decide, by decide, by decide, by decide⟩

/-- Witness for C2 (amended) at the first view of the fresh three-view
share. -/
theorem C2_amended_witness :
    seqAttempt ⟨.deepLink, 7, "V"⟩ 0 linkShare3 =
      (.done .success, { linkShare3 with view_count := linkShare3.view_count + 1 }) :=
  ((C2_amended.1 7 "V" 0 linkShare3 rfl (by decide) (by decide) (by decide)).1 (by decide))

/-- C2 counterexample: the first of three sequential views of a
`max_views = 3` share is a successful registration whose post-increment count
is below the limit, yet the code leaves the status `active` (not `viewed`)
and records no `viewed_at`, contradicting the claim. -/
theorem C2_counterexample :
    (seqAttempt ⟨.deepLink, 7, "V"⟩ 0 linkShare3).1 = .done .success ∧
    view1.status = .active ∧ view1.status ≠ .viewed ∧ view1.viewed_at = none := by
  decide

/-- C5 (amended): `status=expired` arises from three writers, not only the
timer: (i) the deep-link view path writes it when its pre-check observes an
active share whose `view_count` already reached a positive `max_views`;
(ii) the timer job writes it whenever the share is still `active`, with any
view count (and only then); (iii) the message-deletion job downgrades to
`expired` on a forbidden deletion. -/
theorem C5_amended :
    (∀ (v : Int) (nm : String) (t : Nat) (s : Share),
      s.status = .active → 0 < s.max_views → s.max_views ≤ s.view_count →
      ¬(s.recipient_id.isSome ∧ s.recipient_type = .link ∧ s.recipient_id ≠ some v) →
      seqAttempt ⟨.deepLink, v, nm⟩ t s =
        (.done .maxViewsExpired,
         { s with status := .expired, expired_at := some (t + 1),
                  failure_reason :=
                    some ("max_views_reached (" ++ toString s.max_views ++ ")") })) ∧
    (∀ (now : Nat) (s : Share), (markShareAsExpiredJob now s).status = .expired →
      s.status = .active ∨ s.status = .expired) ∧
    (∀ (now : Nat) (s : Share), s.status = .active →
      markShareAsExpiredJob now s = { s with status := .expired, expired_at := some now }) ∧
    (∀ (now : Nat) (s : Share),
      (executeMessageDeletionJob now .forbidden true s).status = .expired) := by
  refine ⟨?_, ?_, ?_, ?_⟩
  · intro v nm t s hact hmv hge hnr
    have hle : 0 < s.max_views ∧ s.max_views ≤ s.view_count := ⟨hmv, hge⟩
    simp [seqAttempt, stepOne, initPC, hact, hnr, hle, expireMaxViewsWrite]
  · intro now s h
    by_cases hs : s.status = .active
    · exact Or.inl hs
    · right
      simpa [markShareAsExpiredJob, hs] using h
  · intro now s hs
    simp [markShareAsExpiredJob, hs]
  · intro now s
    simp [executeMessageDeletionJob]

/-- Witness for C5 (amended) at an active share whose two views exhausted
`max_views = 2`. -/
theorem C5_amended_witness :
    seqAttempt ⟨.deepLink, 9, "C"⟩ 0 { baseShare with max_views := 2, view_count := 2 } =
      (.done .maxViewsExpired,
       { { baseShare with max_views := 2, view_count := 2 } with
           status := .expired, expired_at := some 1,
           failure_reason := some "max_views_reached (2)" }) :=
  C5_amended.1 9 "C" 0 { baseShare with max_views := 2, view_count := 2 }
    rfl (by decide) (by decide) (by decide)

/-- C5 counterexample: an interleaving of three user view attempts (two
button presses racing, then one deep-link attempt; no timer job runs at all)
leaves the share `expired` with `view_count = 2`, contradicting the claim
that `expired` arises only from the expiry timer firing on an active share
with zero views. -/
theorem C5_counterexample :
    (run staleCfgs (initSys staleCfgs userShare2Views) staleSched).share.status = .expired ∧
    (run staleCfgs (initSys staleCfgs userShare2Views) staleSched).share.view_count = 2 ∧
    (run staleCfgs (initSys staleCfgs userShare2Views) staleSched).share.failure_reason =
      some "max_views_reached (2)" := by
  decide

/-- C4 (amended): only the view-registration `find_one_and_update` and the
timer expiry update are conditional on the share's status and view budget.
The other mutations go through `update_share`, which filters on `share_uuid`
alone: the post-view destructed finalization, the deep-link max-views expiry
write, the revoke write and the deletion-job writes set `status` and terminal
timestamps whatever the record currently holds — the revoke write in
particular sets `status=revoked` on a record of any status, since the
`active`/`viewed` check is a separate earlier read, not part of the write. -/
theorem C4_amended :
    (∀ (f : ViewSetFields) (now : Nat) (s : Share),
      ((findOneAndUpdateView f now s).1.isSome) = viewMatchCond s) ∧
    (∀ (now : Nat) (s : Share), s.status ≠ .active → markShareAsExpiredJob now s = s) ∧
    (∀ (upd : Share) (now : Nat) (s : Share),
      0 < upd.max_views → upd.max_views ≤ upd.view_count →
      (buttonFinalizeWrite upd now s).status = .destructed ∧
      (deeplinkFinalizeWrite upd.max_views upd now s).status = .destructed) ∧
    (∀ (now : Nat) (mv : Int) (s : Share), (expireMaxViewsWrite now mv s).status = .expired) ∧
    (∀ (now : Nat) (s : Share),
      (executeMessageDeletionJob now .ok true s).status = .destructed) ∧
    (∀ (now : Nat) (s : Share),
      (revokeWrite now s).status = .revoked ∧
      (revokeWrite now s).revoked_at = some now ∧
      (revokeWrite now s).expires_at = some now) := by
  refine ⟨?_, ?_, ?_, ?_, ?_, ?_⟩
  · intro f now s
    by_cases h : viewMatchCond s <;> simp [findOneAndUpdateView, h]
  · intro now s h
    simp [markShareAsExpiredJob, h]
  · intro upd now s h1 h2
    constructor
    · unfold buttonFinalizeWrite
      have hc : (decide (0 < upd.max_views) && decide (upd.max_views ≤ upd.view_count)) = true := by
        simp [h1, h2]
      rw [if_pos hc]
      split <;> rfl
    · unfold deeplinkFinalizeWrite
      simp [h1, h2]
  · intro now mv s
    simp [expireMaxViewsWrite]
  · intro now s
    simp [executeMessageDeletionJob]
  · intro now s
    exact ⟨rfl, rfl, rfl⟩

/-- Witness for C4 (amended): the finalization write turns an already
`expired` record into `destructed`, and the revoke write turns an already
`destructed` record into `revoked`. -/
theorem C4_amended_witness :
    ((buttonFinalizeWrite { baseShare with view_count := 1 } 9
        { baseShare with status := .expired }).status = .destructed ∧
     (deeplinkFinalizeWrite { baseShare with view_count := 1 }.max_views
        { baseShare with view_count := 1 } 9
        { baseShare with status := .expired }).status = .destructed) ∧
    (revokeWrite 9 { baseShare with status := .destructed }).status = .revoked :=
  ⟨C4_amended.2.2.1 { baseShare with view_count := 1 } 9
     { baseShare with status := .expired } (by decide) (by decide),
   (C4_amended.2.2.2.2.2 9 { baseShare with status := .destructed }).1⟩

/-- C4 counterexample: in the interleaving `staleSched` the store ends
`expired`; scheduling one more step — the second button attempt's
finalization `update_share` — overwrites that status with `destructed`,
although the record matched no `active`/`viewed` guard: a mutation of
`status` that does not go through a conditional operation guarded on the
share's current status. -/
theorem C4_counterexample :
    (run staleCfgs (initSys staleCfgs userShare2Views) staleSched).share.status = .expired ∧
    (run staleCfgs (initSys staleCfgs userShare2Views) staleSchedFin).share.status =
      .destructed := by
  decide

/-! ### Helper lemmas for the race invariant -/

theorem countP_set_of_get? {α : Type _} (p : α → Bool) (l : List α) (i : Nat) (x a : α)
    (h : l.get? i = some a) :
    (l.set i x).countP p =
      l.countP p - (if p a then 1 else 0) + (if p x then 1 else 0) := by
  have hlen : i < l.length := List.get?_eq_some.1 h |>.1
  have hget : l[i] = a := by
    rcases List.get?_eq_some.1 h with ⟨hl, hg⟩
    simpa using hg
  rw [List.countP_set p l i x hlen, hget]

theorem countP_pos_of_mem {α : Type _} (p : α → Bool) (l : List α) (a : α)
    (ha : a ∈ l) (hp : p a = true) : 1 ≤ l.countP p := by
  have : 0 < l.countP p := List.countP_pos_iff.2 ⟨a, ha, hp⟩
  omega

theorem applyViewUpdate_max_views (f : ViewSetFields) (now : Nat) (s : Share) :
    (applyViewUpdate f now s).max_views = s.max_views := by
  unfold applyViewUpdate; split_ifs <;> rfl

theorem applyViewUpdate_view_count (f : ViewSetFields) (now : Nat) (s : Share) :
    (applyViewUpdate f now s).view_count = s.view_count + 1 := by
  unfold applyViewUpdate; split_ifs <;> rfl

theorem applyViewUpdate_status_of_mark (f : ViewSetFields) (now : Nat) (s : Share)
    (h : f.markViewed = true) : (applyViewUpdate f now s).status = .viewed := by
  unfold applyViewUpdate; rw [if_pos h]; split_ifs <;> rfl

theorem deeplinkFinalizeWrite_cases (preMv : Int) (upd : Share) (now : Nat) (s : Share) :
    deeplinkFinalizeWrite preMv upd now s = s ∨
    deeplinkFinalizeWrite preMv upd now s =
      { s with status := .destructed, destructed_at := some now } := by
  unfold deeplinkFinalizeWrite; split_ifs
  · right; rfl
  · left; rfl

theorem buttonFinalizeWrite_cases (upd : Share) (now : Nat) (s : Share) :
    buttonFinalizeWrite upd now s = s ∨
    buttonFinalizeWrite upd now s =
      { s with status := .destructed, destructed_at := some now } ∨
    buttonFinalizeWrite upd now s = { s with status := .destructed } := by
  unfold buttonFinalizeWrite; split_ifs
  · right; left; rfl
  · right; right; rfl
  · left; rfl

theorem deeplinkFinalizeWrite_max_views (preMv : Int) (upd : Share) (now : Nat) (s : Share) :
    (deeplinkFinalizeWrite preMv upd now s).max_views = s.max_views := by
  unfold deeplinkFinalizeWrite; split_ifs <;> rfl

theorem deeplinkFinalizeWrite_view_count (preMv : Int) (upd : Share) (now : Nat) (s : Share) :
    (deeplinkFinalizeWrite preMv upd now s).view_count = s.view_count := by
  unfold deeplinkFinalizeWrite; split_ifs <;> rfl

theorem buttonFinalizeWrite_max_views (upd : Share) (now : Nat) (s : Share) :
    (buttonFinalizeWrite upd now s).max_views = s.max_views := by
  unfold buttonFinalizeWrite; split_ifs <;> rfl

theorem buttonFinalizeWrite_view_count (upd : Share) (now : Nat) (s : Share) :
    (buttonFinalizeWrite upd now s).view_count = s.view_count := by
  unfold buttonFinalizeWrite; split_ifs <;> rfl

/-- Preservation of `Inv` under a step that does not write to the store and
does not change whether the stepped attempt has succeeded. -/
theorem inv_set_pure (s0 : Share) (n : Nat) (sys : Sys) (i : Nat) (pc pc' : APC) (t' : Nat)
    (hp : sys.pcs.get? i = some pc)
    (hInv : Inv s0 n sys)
    (hs : succeededB pc' = succeededB pc)
    (hok' : pcOK1 pc')
    (hnd : s0.recipient_type = .link → s0.recipient_id = none →
           sys.pcs.countP succeededB = 0 → isDoneB pc' = false) :
    Inv s0 n { share := sys.share, time := t', pcs := sys.pcs.set i pc' } := by
  obtain ⟨hlen, hmv, hle1, hact, hvc0, hvcnn, hok, hzero, hlink⟩ := hInv
  have hcnt : (sys.pcs.set i pc').countP succeededB = sys.pcs.countP succeededB := by
    rw [countP_set_of_get? _ _ _ _ _ hp, hs]
    by_cases hb : succeededB pc = true
    · have := countP_pos_of_mem succeededB sys.pcs pc (List.get?_mem hp) hb
      simp only [hb, if_true]
      omega
    · rw [Bool.not_eq_true] at hb
      simp [hb]
  refine ⟨by simpa [List.length_set] using hlen, hmv, ?_, ?_, hvc0, hvcnn, ?_, ?_, ?_⟩
  · simpa [hcnt] using hle1
  · simpa [hcnt] using hact
  · intro y hy
    rcases List.mem_or_eq_of_mem_set hy with hy' | rfl
    · exact hok y hy'
    · exact hok'
  · simpa [hcnt] using hzero
  · intro hl1 hl2 h0
    simp only [hcnt] at h0
    intro y hy
    rcases List.mem_or_eq_of_mem_set hy with hy' | rfl
    · exact hlink hl1 hl2 h0 y hy'
    · exact hnd hl1 hl2 h0

/-- Preservation of `Inv` under a successful atomic view update. -/
theorem inv_set_atomic_succ (s0 : Share) (n : Nat) (sys : Sys) (i : Nat)
    (f : ViewSetFields) (pc pc' : APC) (now t' : Nat)
    (hp : sys.pcs.get? i = some pc)
    (hInv : Inv s0 n sys)
    (hpcb : succeededB pc = false)
    (hpc' : succeededB pc' = true)
    (hok' : pcOK1 pc')
    (hmk : f.markViewed = true)
    (hmatch : viewMatchCond sys.share = true) :
    Inv s0 n { share := applyViewUpdate f now sys.share, time := t',
               pcs := sys.pcs.set i pc' } := by
  obtain ⟨hlen, hmv, hle1, hact, hvc0, hvcnn, hok, hzero, hlink⟩ := hInv
  have hstat : sys.share.status = .active := by
    unfold viewMatchCond at hmatch
    simp only [Bool.and_eq_true, decide_eq_true_eq] at hmatch
    exact hmatch.1
  have h0 : sys.pcs.countP succeededB = 0 := by
    by_contra hne
    exact hact (by omega) hstat
  have hcnt : (sys.pcs.set i pc').countP succeededB = 1 := by
    rw [countP_set_of_get? _ _ _ _ _ hp, h0, hpcb, hpc']
    simp
  refine ⟨by simpa [List.length_set] using hlen,
          by rw [applyViewUpdate_max_views]; exact hmv,
          by rw [hcnt],
          ?_, ?_, ?_, ?_, ?_, ?_⟩
  · intro _
    rw [applyViewUpdate_status_of_mark f now _ hmk]
    simp
  · intro hA
    rw [applyViewUpdate_status_of_mark f now _ hmk] at hA
    cases hA
  · rw [applyViewUpdate_view_count]
    omega
  · intro y hy
    rcases List.mem_or_eq_of_mem_set hy with hy' | rfl
    · exact hok y hy'
    · exact hok'
  · intro h'
    rw [hcnt] at h'
    omega
  · intro _ _ h'
    rw [hcnt] at h'
    omega

/-- Preservation of `Inv` under a finalization write performed by an attempt
that already succeeded. -/
theorem inv_set_finalize (s0 : Share) (n : Nat) (sys : Sys) (i : Nat) (pc : APC)
    (s' : Share) (t' : Nat)
    (hp : sys.pcs.get? i = some pc)
    (hInv : Inv s0 n sys)
    (hpcb : succeededB pc = true)
    (hcase : s' = sys.share ∨ s'.status = .destructed)
    (hmvp : s'.max_views = sys.share.max_views)
    (hvcp : s'.view_count = sys.share.view_count) :
    Inv s0 n { share := s', time := t', pcs := sys.pcs.set i (.done .success) } := by
  obtain ⟨hlen, hmv, hle1, hact, hvc0, hvcnn, hok, hzero, hlink⟩ := hInv
  have h1 : 1 ≤ sys.pcs.countP succeededB :=
    countP_pos_of_mem succeededB sys.pcs pc (List.get?_mem hp) hpcb
  have hcnt : (sys.pcs.set i (.done .success)).countP succeededB =
      sys.pcs.countP succeededB := by
    rw [countP_set_of_get? _ _ _ _ _ hp, hpcb]
    simp only [succeededB, if_true]
    omega
  have hsne : s'.status ≠ .active := by
    rcases hcase with rfl | hd
    · exact hact h1
    · rw [hd]; simp
  refine ⟨by simpa [List.length_set] using hlen,
          by rw [hmvp]; exact hmv,
          by rw [hcnt]; exact hle1,
          fun _ => hsne,
          fun hA => absurd hA hsne,
          by rw [hvcp]; exact hvcnn,
          ?_, ?_, ?_⟩
  · intro y hy
    rcases List.mem_or_eq_of_mem_set hy with hy' | rfl
    · exact hok y hy'
    · trivial
  · intro h'
    rw [hcnt] at h'
    omega
  · intro _ _ h'
    rw [hcnt] at h'
    omega

/-- `Inv` is preserved by every scheduler step. -/
theorem inv_step (s0 : Share) (cfgs : List AttemptCfg) (sys : Sys) (i : Nat)
    (hs0a : s0.status = .active) (hs0c : s0.view_count = 0) (hs0m : s0.max_views = 1)
    (h : Inv s0 cfgs.length sys) : Inv s0 cfgs.length (sysStep cfgs sys i) := by
  unfold sysStep
  cases hc : cfgs.get? i with
  | none =>
    cases hp : sys.pcs.get? i <;> exact h
  | some cfg =>
    cases hp : sys.pcs.get? i with
    | none => exact h
    | some pc =>
      have hmem : pc ∈ sys.pcs := List.get?_mem hp
      have hpcok : pcOK1 pc := h.2.2.2.2.2.2.1 pc hmem
      have hmv : sys.share.max_views = 1 := h.2.1
      have hvc0 : sys.share.status = .active → sys.share.view_count = 0 := h.2.2.2.2.1
      have hvcnn : 0 ≤ sys.share.view_count := h.2.2.2.2.2.1
      have hzero : sys.pcs.countP succeededB = 0 → sys.share = s0 := h.2.2.2.2.2.2.2.1
      have hlink := h.2.2.2.2.2.2.2.2
      dsimp only
      cases pc with
      | dStart =>
        dsimp only [stepOne]
        split_ifs with h1 h2 h3
        · refine inv_set_pure s0 _ sys i _ _ _ hp h rfl trivial ?_
          intro hl1 hl2 h0
          exfalso
          rw [hzero h0] at h1
          exact h1 hs0a
        · refine inv_set_pure s0 _ sys i _ _ _ hp h rfl trivial ?_
          intro hl1 hl2 h0
          exfalso
          rw [hzero h0] at h2
          rw [hl2] at h2
          simp at h2
        · exfalso
          have hA : sys.share.status = .active := not_ne_iff.mp h1
          have hc0 := hvc0 hA
          rw [hmv, hc0] at h3
          omega
        · refine inv_set_pure s0 _ sys i _ _ _ hp h rfl ?_ (fun _ _ _ => rfl)
          have hA : sys.share.status = .active := not_ne_iff.mp h1
          have hc0 := hvc0 hA
          show (deeplinkFields sys.share cfg.viewer cfg.viewerName).markViewed = true
          simp [deeplinkFields, hmv, hc0]
      | dExpire mv =>
        exact hpcok.elim
      | dAtomic preMv f =>
        dsimp only [stepOne]
        unfold findOneAndUpdateView
        split_ifs with hm
        · dsimp only
          exact inv_set_atomic_succ s0 _ sys i f _ _ sys.time _ hp h rfl rfl
            trivial hpcok hm
        · dsimp only
          refine inv_set_pure s0 _ sys i _ _ _ hp h rfl trivial ?_
          intro hl1 hl2 h0
          exfalso
          rw [hzero h0] at hm
          apply hm
          simp [viewMatchCond, hs0a, hs0m, hs0c]
      | dFinal preMv upd =>
        dsimp only [stepOne]
        refine inv_set_finalize s0 _ sys i _ _ _ hp h rfl ?_ ?_ ?_
        · rcases deeplinkFinalizeWrite_cases preMv upd sys.time sys.share with hcase | hcase
          · exact Or.inl hcase
          · right; rw [hcase]
        · exact deeplinkFinalizeWrite_max_views _ _ _ _
        · exact deeplinkFinalizeWrite_view_count _ _ _ _
      | bStart =>
        dsimp only [stepOne]
        refine inv_set_pure s0 _ sys i _ _ _ hp h rfl ?_ (fun _ _ _ => rfl)
        show (decide (0 < sys.share.max_views) &&
              decide (sys.share.max_views ≤ sys.share.view_count + 1)) = true
        rw [hmv]
        simp only [Bool.and_eq_true, decide_eq_true_eq]
        omega
      | bRead2 mk =>
        dsimp only [stepOne]
        split_ifs with h1 h2
        · exact inv_set_pure s0 _ sys i _ _ _ hp h rfl hpcok (fun _ _ _ => rfl)
        · refine inv_set_pure s0 _ sys i _ _ _ hp h rfl trivial ?_
          intro hl1 hl2 h0
          exfalso
          rw [hzero h0] at h1
          exact h1 ⟨hl2, hl1⟩
        · exact inv_set_pure s0 _ sys i _ _ _ hp h rfl hpcok (fun _ _ _ => rfl)
      | bAtomic f =>
        dsimp only [stepOne]
        unfold findOneAndUpdateView
        split_ifs with hm
        · dsimp only
          exact inv_set_atomic_succ s0 _ sys i f _ _ sys.time _ hp h rfl rfl
            trivial hpcok hm
        · dsimp only
          refine inv_set_pure s0 _ sys i _ _ _ hp h rfl trivial ?_
          intro hl1 hl2 h0
          exfalso
          rw [hzero h0] at hm
          apply hm
          simp [viewMatchCond, hs0a, hs0m, hs0c]
      | bFinal upd =>
        dsimp only [stepOne]
        refine inv_set_finalize s0 _ sys i _ _ _ hp h rfl ?_ ?_ ?_
        · rcases buttonFinalizeWrite_cases upd sys.time sys.share with hcase | hcase | hcase
          · exact Or.inl hcase
          · right; rw [hcase]
          · right; rw [hcase]
        · exact buttonFinalizeWrite_max_views _ _ _
        · exact buttonFinalizeWrite_view_count _ _ _
      | done o =>
        dsimp only [stepOne]
        refine inv_set_pure s0 _ sys i _ _ _ hp h rfl hpcok ?_
        intro hl1 hl2 h0
        exfalso
        simpa [isDoneB] using hlink hl1 hl2 h0 _ hmem

/-- `Inv` holds initially. -/
theorem inv_init (s0 : Share) (cfgs : List AttemptCfg)
    (hs0a : s0.status = .active) (hs0c : s0.view_count = 0) (hs0m : s0.max_views = 1) :
    Inv s0 cfgs.length (initSys cfgs s0) := by
  have hforall : ∀ pc ∈ (initSys cfgs s0).pcs, pc = .dStart ∨ pc = .bStart := by
    intro pc hpc
    simp only [initSys, List.mem_map] at hpc
    rcases hpc with ⟨c, _, rfl⟩
    cases c.entry <;> simp [initPC]
  have h0 : (initSys cfgs s0).pcs.countP succeededB = 0 := by
    rw [List.countP_eq_zero]
    intro pc hpc
    rcases hforall pc hpc with rfl | rfl <;> simp [succeededB]
  refine ⟨by simp [initSys], hs0m, by rw [h0]; omega, ?_, fun _ => hs0c,
          by show 0 ≤ s0.view_count; omega, ?_, fun _ => rfl, ?_⟩
  · rw [h0]; omega
  · intro pc hpc
    rcases hforall pc hpc with rfl | rfl <;> trivial
  · intro _ _ _ pc hpc
    rcases hforall pc hpc with rfl | rfl <;> rfl

/-- `Inv` holds after running any schedule. -/
theorem inv_run (s0 : Share) (cfgs : List AttemptCfg) (sys : Sys) (sched : List Nat)
    (hs0a : s0.status = .active) (hs0c : s0.view_count = 0) (hs0m : s0.max_views = 1)
    (h : Inv s0 cfgs.length sys) : Inv s0 cfgs.length (run cfgs sys sched) := by
  induction sched generalizing sys with
  | nil => exact h
  | cons i rest ih => exact ih _ (inv_step s0 cfgs sys i hs0a hs0c hs0m h)

theorem isSuccessPC_imp_succeededB : ∀ pc : APC, isSuccessPC pc = true → succeededB pc = true := by
  intro pc h
  cases pc <;> try (simp [isSuccessPC] at h)
  case done o => cases o <;> simp [isSuccessPC, succeededB] at h ⊢

theorem countP_done_eq (l : List APC) (h : ∀ pc ∈ l, isDoneB pc = true) :
    l.countP succeededB = l.countP isSuccessPC := by
  apply List.countP_congr
  intro pc hpc
  have hd := h pc hpc
  cases pc with
  | done o => cases o <;> simp [succeededB, isSuccessPC]
  | dStart => simp [isDoneB] at hd
  | dExpire mv => simp [isDoneB] at hd
  | dAtomic preMv f => simp [isDoneB] at hd
  | dFinal preMv upd => simp [isDoneB] at hd
  | bStart => simp [isDoneB] at hd
  | bRead2 mk => simp [isDoneB] at hd
  | bAtomic f => simp [isDoneB] at hd
  | bFinal upd => simp [isDoneB] at hd

/-- C1 (amended): racing any number of view attempts (either entry point,
any viewers, any interleaving) against a share with `max_views = 1`,
`status active` and `view_count 0`, at most one attempt ever receives the
updated record. If the share is an unclaimed link share and the interleaving
runs all K ≥ 2 attempts to completion, exactly one attempt succeeds, and
every attempt ends in `success`, the no-match `Conflict`, the deep-link
already-finalized rejection, or `NotPermitted` (a button attempt whose
pre-read followed the winner's claim of the share by a different viewer). -/
theorem C1_amended (cfgs : List AttemptCfg) (s0 : Share) (sched : List Nat)
    (hs0a : s0.status = .active) (hs0c : s0.view_count = 0) (hs0m : s0.max_views = 1) :
    successCount (run cfgs (initSys cfgs s0) sched) ≤ 1 ∧
    (s0.recipient_type = .link → s0.recipient_id = none → 2 ≤ cfgs.length →
      allDone (run cfgs (initSys cfgs s0) sched) →
      successCount (run cfgs (initSys cfgs s0) sched) = 1 ∧
      ∀ o : ViewOutcome, (.done o) ∈ (run cfgs (initSys cfgs s0) sched).pcs →
        o = .success ∨ o = .conflict ∨ o = .alreadyFinalized ∨ o = .notPermitted) := by
  have hInv := inv_run s0 cfgs (initSys cfgs s0) sched hs0a hs0c hs0m
    (inv_init s0 cfgs hs0a hs0c hs0m)
  set final := run cfgs (initSys cfgs s0) sched with hfinal
  obtain ⟨hlen, hmv, hle1, hact, hvc0, hvcnn, hok, hzero, hlink⟩ := hInv
  have hmono : final.pcs.countP isSuccessPC ≤ final.pcs.countP succeededB :=
    List.countP_mono_left (fun pc _ => isSuccessPC_imp_succeededB pc)
  constructor
  · unfold successCount
    omega
  · intro hl1 hl2 hk hdone
    have hdone' : ∀ pc ∈ final.pcs, isDoneB pc = true := hdone
    have hne : final.pcs ≠ [] := by
      intro hnil
      rw [hnil] at hlen
      simp at hlen
      omega
    obtain ⟨pc0, hpc0⟩ : ∃ pc, pc ∈ final.pcs := List.exists_mem_of_ne_nil _ hne
    have hpos : final.pcs.countP succeededB ≠ 0 := by
      intro h0
      have hcontra := hlink hl1 hl2 h0 pc0 hpc0
      rw [hdone' pc0 hpc0] at hcontra
      cases hcontra
    have heq1 : final.pcs.countP succeededB = 1 := by omega
    have hceq := countP_done_eq final.pcs hdone'
    constructor
    · unfold successCount
      omega
    · intro o ho
      cases o
      case success => exact Or.inl rfl
      case conflict => exact Or.inr (Or.inl rfl)
      case alreadyFinalized => exact Or.inr (Or.inr (Or.inl rfl))
      case notPermitted => exact Or.inr (Or.inr (Or.inr rfl))
      case maxViewsExpired => exact (hok _ ho).elim

/-- Witness for C1 (amended): two sequential attempts on the fresh one-time
link share, each part of the conclusion at this concrete input. -/
theorem C1_amended_witness :
    successCount (run raceCfgs (initSys raceCfgs baseShare) [0, 0, 0, 0, 1, 1]) ≤ 1 ∧
    successCount (run raceCfgs (initSys raceCfgs baseShare) [0, 0, 0, 0, 1, 1]) = 1 :=
  ⟨(C1_amended raceCfgs baseShare [0, 0, 0, 0, 1, 1] rfl rfl rfl).1,
   ((C1_amended raceCfgs baseShare [0, 0, 0, 0, 1, 1] rfl rfl rfl).2
      rfl rfl (by decide) (by decide)).1⟩

/-- C1 counterexample: on a fresh `max_views = 1` unclaimed link share, two
button attempts by different viewers run to completion; exactly one succeeds,
but the losing attempt observes `NotPermitted` ("this secret is not intended
for you", issued after the winner's atomic update bound the share to the
winner), not the no-match `Conflict` outcome the claim promises for all K−1
losers. Moreover, on a fresh `max_views = 1` specific-user share bound to
viewer 1, two completed button attempts by viewers 2 and 3 produce zero
successes, contradicting "exactly one attempt succeeds" for every share. -/
theorem C1_counterexample :
    successCount (run raceCfgs (initSys raceCfgs baseShare) [0, 0, 0, 0, 1, 1]) = 1 ∧
    (run raceCfgs (initSys raceCfgs baseShare) [0, 0, 0, 0, 1, 1]).pcs.get? 1 =
      some (.done .notPermitted) ∧
    allDone (run raceCfgs (initSys raceCfgs baseShare) [0, 0, 0, 0, 1, 1]) ∧
    successCount (run strangerCfgs (initSys strangerCfgs userShareBound1) [0, 0, 1, 1]) = 0 ∧
    allDone (run strangerCfgs (initSys strangerCfgs userShareBound1) [0, 0, 1, 1]) := by
  decide

end SecretShare
